import Mathlib

/-!
A shallow embedding of the quest/crafting core of the ChuzoBot repository
(`utils/database.py` and `utils/quest_manager.py`), with theorems checking
the natural-language specification against it.

Python dictionaries are modelled as association lists in insertion order,
SQL tables as lists of row records in insertion (rowid) order, and Python
scalar values as the inductive type `Val`.  Timestamps (`datetime('now')`)
are threaded as explicit `Nat` parameters.
-/

set_option autoImplicit false

namespace ZXI

/-- A Python scalar value as it appears in quest content and player state. -/
inductive Val where
  | none : Val
  | bool : Bool → Val
  | int : Int → Val
  | str : String → Val
deriving DecidableEq

/-- Python `str(v)` on the values of `Val` (used by f-strings and `.replace`). -/
def pyStr : Val → String
  | Val.none => "None"
  | Val.bool true => "True"
  | Val.bool false => "False"
  | Val.int n => toString n
  | Val.str s => s

/-- Python truthiness of a `Val` (`if v:`). -/
def truthy : Val → Bool
  | Val.none => false
  | Val.bool b => b
  | Val.int n => decide (n ≠ 0)
  | Val.str s => decide (s ≠ "")

section Assoc

variable {α β : Type} [DecidableEq α]

/-- Dictionary lookup `d.get(k)` on an insertion-ordered association list. -/
def alookup : List (α × β) → α → Option β
  | [], _ => Option.none
  | (k', v') :: rest, k => if k' = k then some v' else alookup rest k

/-- Dictionary assignment `d[k] = v`: overwrite in place if present, else append. -/
def setk : List (α × β) → α → β → List (α × β)
  | [], k, v => [(k, v)]
  | (k', v') :: rest, k, v =>
    if k' = k then (k, v) :: rest else (k', v') :: setk rest k v

/-- Dictionary deletion `del d[k]`. -/
def delk (l : List (α × β)) (k : α) : List (α × β) :=
  l.filter (fun kv => kv.1 ≠ k)

end Assoc

/-! ### Python `str.replace` and `in`, at the level of character lists

`narrative.replace(placeholder, value)` replaces every non-overlapping
occurrence of the (always non-empty) placeholder, scanning left to right.
We model strings through their character lists; the pattern is split into
its head character and tail so that the recursion is well founded. -/

/-- One-position match: does the pattern `p0 :: ps` start at the head of `s`? -/
def startsWithPat (p0 : Char) (ps : List Char) (s : List Char) : Bool :=
  match s with
  | [] => false
  | c :: rest => c = p0 && ps.isPrefixOf rest

/-- Python `pat in s` for a non-empty pattern `p0 :: ps`. -/
def containsPat (p0 : Char) (ps : List Char) : List Char → Bool
  | [] => false
  | c :: rest => startsWithPat p0 ps (c :: rest) || containsPat p0 ps rest

/-- Greedy left-to-right replacement of non-overlapping occurrences of
`p0 :: ps`, with explicit fuel so the recursion is structural.  One unit of
fuel is spent per character position examined; since every step consumes at
least one character, `s.length` fuel always suffices. -/
def replacePatAux (p0 : Char) (ps rep : List Char) : Nat → List Char → List Char
  | _, [] => []
  | 0, s => s
  | fuel + 1, c :: rest =>
    if startsWithPat p0 ps (c :: rest) then
      rep ++ replacePatAux p0 ps rep fuel (rest.drop ps.length)
    else
      c :: replacePatAux p0 ps rep fuel rest

/-- Python `s.replace(p0 :: ps, rep)`. -/
def replacePat (p0 : Char) (ps rep : List Char) (s : List Char) : List Char :=
  replacePatAux p0 ps rep s.length s

/-- Python `pat in s` on strings (empty pattern is vacuously contained). -/
def pyContains (s pat : String) : Bool :=
  match pat.data with
  | [] => true
  | p0 :: ps => containsPat p0 ps s.data

/-- Python `s.replace(pat, rep)` on strings (never called on an empty pattern
by the embedded code: placeholders always have the shape `\x7bname\x7d`). -/
def pyReplace (s pat rep : String) : String :=
  match pat.data with
  | [] => s
  | p0 :: ps => ⟨replacePat p0 ps rep.data s.data⟩

/-- The `\x7bkey\x7d` placeholder string for a state variable. -/
def placeholderOf (key : String) : String :=
  "\x7b" ++ key ++ "\x7d"

/-- `QuestManager._process_dynamic_content`, narrative part: for every state
variable in insertion order, if its placeholder occurs in the text, replace
every occurrence with `str(value)`. -/
def substituteVars (state : List (String × Val)) (text : String) : String :=
  state.foldl
    (fun n kv =>
      if pyContains n (placeholderOf kv.1) then
        pyReplace n (placeholderOf kv.1) (pyStr kv.2)
      else n)
    text

/-! ### Data model

Rows of the SQLite tables created by `Database._initialize_tables`, and the
dictionary shapes of quest content as `QuestManager` consumes them.  Only the
tables and fields the quest/crafting core reads or writes are modelled. -/

/-- A row of `user_inventory` (primary key `(user_id, item_name)`). -/
structure InvRow where
  user_id : Int
  item_name : String
  rarity : String
  quantity : Int
deriving DecidableEq

/-- A row of `user_quests` (primary key `(user_id, quest_name)`). -/
structure QuestRow where
  user_id : Int
  quest_name : String
  status : String
  current_scene : Val
  started_date : Nat
  completed_date : Option Nat
deriving DecidableEq

/-- A row of `decision_logs`
(primary key `(user_id, quest_name, scene_id, choice_id)`). -/
structure DecRow where
  user_id : Int
  quest_name : String
  scene_id : String
  choice_id : String
  decision_date : Nat
deriving DecidableEq

/-- A row of `user_progress` (primary key `(user_id, category, item_name)`). -/
structure ProgRow where
  user_id : Int
  category : String
  item_name : String
  discovered : Bool
  discovery_date : Option Nat
deriving DecidableEq

/-- A row of `crafting_recipes`, with its two JSON columns already decoded:
`requirements` is an object mapping item name to quantity, and
`quest_requirements` a list of quest names. -/
structure Recipe where
  result_item : String
  result_rarity : String
  requirements : List (String × Int)
  quest_requirements : List String
deriving DecidableEq

/-- The database state visible to the quest/crafting core. -/
structure DB where
  user_inventory : List InvRow
  user_quests : List QuestRow
  user_progress : List ProgRow
  decision_logs : List DecRow
  crafting_recipes : List Recipe
deriving DecidableEq

/-- The `outcomes` object of a choice; each key is optional. -/
structure OutcomeDef where
  state_changes : Option (List (String × Val)) := Option.none
  items_gained : Option (List (String × Int)) := Option.none
  items_lost : Option (List (String × Int)) := Option.none
deriving DecidableEq

/-- A choice dictionary of a scene. -/
structure ChoiceDef where
  id : String
  text : String := ""
  conditions : Option (List (String × Val)) := Option.none
  outcomes : Option OutcomeDef := Option.none
  next_scene : Option Val := Option.none
deriving DecidableEq

/-- A scene dictionary: `narrative` and `choices` keys are optional
(`make_choice` reads `scene_data.get("choices", [])`). -/
structure SceneDef where
  narrative : Option String := Option.none
  choices : Option (List ChoiceDef) := Option.none
deriving DecidableEq

/-- The `rewards` object of a quest; an absent key behaves like an absent
dictionary entry (`if "xp" in rewards:` and so on). -/
structure RewardsDef where
  xp : Option Int := Option.none
  items : Option (List (String × Int)) := Option.none
  discoveries : Option (List (String × List String)) := Option.none
deriving DecidableEq

/-- A quest definition as returned by `lore_manager.get_quest_info`; its
scenes dictionary is keyed by strings of the form `scene_<n>`. -/
structure QuestInfo where
  scenes : List (String × SceneDef) := []
  rewards : RewardsDef := {}
deriving DecidableEq

/-- An item dictionary as returned by `lore_manager.get_item`. -/
structure ItemInfo where
  rarity : Option String := Option.none
  description : Option String := Option.none
deriving DecidableEq

/-- The read-only content store (`FangenLoreManager`). -/
structure Content where
  quests : List (String × QuestInfo) := []
  items : List (String × ItemInfo) := []
deriving DecidableEq

/-- One entry of `QuestManager.active_quests` (an in-process dictionary). -/
structure ActiveQuest where
  quest_name : String
  current_scene : Val
  inventory : List (String × Int)
  state : List (String × Val)
deriving DecidableEq

/-- The full mutable state: database plus the in-process active-quest map. -/
structure World where
  db : DB
  active_quests : List (Int × ActiveQuest)
deriving DecidableEq

/-- The dictionary payload returned alongside (success, message). -/
inductive Payload where
  | empty : Payload
  | scene : SceneDef → Payload
  | completion : String → RewardsDef → String → Payload
deriving DecidableEq

/-! ### Database primitives (the SQL statements the core issues) -/

/-- `item_info.get("rarity", "common")` with a missing item defaulting to
`"common"` as in `QuestManager._complete_quest`. -/
def itemRarity (c : Content) (name : String) : String :=
  match alookup c.items name with
  | some info => info.rarity.getD "common"
  | Option.none => "common"

/-- `item_info.get("description", "")` as in `QuestManager.get_inventory`. -/
def itemDescription (c : Content) (name : String) : String :=
  match alookup c.items name with
  | some info => info.description.getD ""
  | Option.none => ""

/-- `UPDATE user_inventory SET quantity = quantity - ? WHERE user_id = ? AND
item_name = ?`. -/
def invUpdateSub (u : Int) (item : String) (q : Int) (db : DB) : DB :=
  { db with
    user_inventory := db.user_inventory.map (fun r =>
      if r.user_id = u ∧ r.item_name = item then
        { r with quantity := r.quantity - q } else r) }

/-- `DELETE FROM user_inventory WHERE user_id = ? AND item_name = ? AND
quantity <= 0`. -/
def invDeleteNonpos (u : Int) (item : String) (db : DB) : DB :=
  { db with
    user_inventory := db.user_inventory.filter (fun r =>
      ¬(r.user_id = u ∧ r.item_name = item ∧ r.quantity ≤ 0)) }

/-- `SELECT * FROM user_inventory WHERE user_id = ? AND item_name = ?`
non-emptiness. -/
def invRowExists (db : DB) (u : Int) (item : String) : Bool :=
  db.user_inventory.any (fun r => r.user_id = u ∧ r.item_name = item)

/-- The production half of `craft_item`: `UPDATE ... quantity + 1` when the
player already holds the item, otherwise `INSERT ... quantity 1`. -/
def produceStep (u : Int) (item rarity : String) (db : DB) : DB :=
  if invRowExists db u item then
    { db with
      user_inventory := db.user_inventory.map (fun r =>
        if r.user_id = u ∧ r.item_name = item then
          { r with quantity := r.quantity + 1 } else r) }
  else
    { db with user_inventory := db.user_inventory ++ [⟨u, item, rarity, 1⟩] }

/-- `INSERT OR REPLACE INTO decision_logs ...`: SQLite deletes any row with
the same primary key and appends the new row. -/
def decInsertOrReplace (l : List DecRow) (u : Int) (qn sid cid : String)
    (t : Nat) : List DecRow :=
  l.filter (fun r =>
    ¬(r.user_id = u ∧ r.quest_name = qn ∧ r.scene_id = sid ∧ r.choice_id = cid))
    ++ [⟨u, qn, sid, cid, t⟩]

/-- `INSERT OR REPLACE INTO user_quests (user_id, quest_name, status,
current_scene, started_date) VALUES (?, ?, ?, ?, ?)`. -/
def questInsertOrReplace (l : List QuestRow) (u : Int) (qn status : String)
    (scene : Val) (t : Nat) : List QuestRow :=
  l.filter (fun r => ¬(r.user_id = u ∧ r.quest_name = qn))
    ++ [⟨u, qn, status, scene, t, Option.none⟩]

/-- `UPDATE user_quests SET current_scene = ? WHERE user_id = ? AND
quest_name = ?`. -/
def questUpdateScene (l : List QuestRow) (u : Int) (qn : String) (scene : Val) :
    List QuestRow :=
  l.map (fun r =>
    if r.user_id = u ∧ r.quest_name = qn then { r with current_scene := scene } else r)

/-- `UPDATE user_quests SET status = 'completed', completed_date = ? WHERE
user_id = ? AND quest_name = ?`. -/
def questUpdateCompleted (l : List QuestRow) (u : Int) (qn : String) (t : Nat) :
    List QuestRow :=
  l.map (fun r =>
    if r.user_id = u ∧ r.quest_name = qn then
      { r with status := "completed", completed_date := some t } else r)

/-- `Database.record_discovery`: update the row if the key exists, else insert
it (the mirror column `users.discovered_lore` is presentation-only and not
modelled). -/
def recordDiscovery (l : List ProgRow) (u : Int) (cat item : String) (t : Nat) :
    List ProgRow :=
  if l.any (fun p => p.user_id = u ∧ p.category = cat ∧ p.item_name = item) then
    l.map (fun p =>
      if p.user_id = u ∧ p.category = cat ∧ p.item_name = item then
        { p with discovered := true, discovery_date := some t } else p)
  else
    l ++ [⟨u, cat, item, true, some t⟩]

/-- `SELECT * FROM user_progress WHERE user_id = ? AND category = 'quests' AND
item_name = ? AND discovered = TRUE` non-emptiness. -/
def hasCompletedQuest (db : DB) (u : Int) (qn : String) : Bool :=
  db.user_progress.any (fun p =>
    p.user_id = u ∧ p.category = "quests" ∧ p.item_name = qn ∧ p.discovered)

/-! ### Crafting resolver (`Database.can_craft_item`, `Database.craft_item`) -/

/-- One entry of the `requirements_status` detail dictionary. -/
structure ReqStatus where
  required : Int
  available : Int
  sufficient : Bool
deriving DecidableEq

/-- The player's inventory rows turned into a name-to-quantity dictionary
(`\x7bitem["item_name"]: item["quantity"] for item in user_inventory\x7d`). -/
def invDict (db : DB) (u : Int) : List (String × Int) :=
  (db.user_inventory.filter (fun r => r.user_id = u)).foldl
    (fun d r => setk d r.item_name r.quantity) []

/-- The quantity of `item` the player holds, `0` if absent
(`inventory_dict.get(req_item, 0)`). -/
def availableQty (db : DB) (u : Int) (item : String) : Int :=
  (alookup (invDict db u) item).getD 0

/-- `Database.can_craft_item`: recipe lookup, per-item sufficiency detail,
then — only when the item checks pass and the recipe lists quest
requirements — a completion check of the *first* listed quest. -/
def can_craft_item (db : DB) (u : Int) (item : String) :
    Bool × String × List (String × ReqStatus) :=
  match db.crafting_recipes.find? (fun r => r.result_item = item) with
  | Option.none => (false, "No recipe found for " ++ item ++ ".", [])
  | some recipe =>
    let status := recipe.requirements.foldl
      (fun st rr => setk st rr.1
        ⟨rr.2, availableQty db u rr.1, decide (availableQty db u rr.1 ≥ rr.2)⟩) []
    let missing := (recipe.requirements.filter
        (fun rr => availableQty db u rr.1 < rr.2)).map
      (fun rr => rr.1 ++ " (" ++ toString (availableQty db u rr.1) ++ "/"
        ++ toString rr.2 ++ ")")
    if missing ≠ [] then
      (false, "Missing required items: " ++ String.intercalate ", " missing, status)
    else
      match recipe.quest_requirements with
      | [] => (true, "You have all the required items to craft this.", status)
      | q0 :: _ =>
        if hasCompletedQuest db u q0 then
          (true, "You have all the required items to craft this.", status)
        else
          (false, "You need to complete the quest '" ++ q0 ++ "' first.", status)

/-- The mutating statements `craft_item` issues once the feasibility check has
passed, in program order.  `Database.execute_query` commits after every
non-SELECT statement, so each list element is an independently durable step:
an interruption can leave the database after any prefix of this list. -/
def craftStmts (recipe : Recipe) (u : Int) : List (DB → DB) :=
  (recipe.requirements.map (fun rr =>
    [invUpdateSub u rr.1 rr.2, invDeleteNonpos u rr.1])).flatten
    ++ [produceStep u recipe.result_item recipe.result_rarity]

/-- Apply a list of statements in order. -/
def runStmts (db : DB) (stmts : List (DB → DB)) : DB :=
  stmts.foldl (fun d f => f d) db

/-- `Database.craft_item`: re-check feasibility, then run every statement.
(The recipe re-query cannot fail after a positive `can_craft_item`; the
`Option.none` branch below is that unreachable path.) -/
def craft_item (db : DB) (u : Int) (item : String) : (Bool × String) × DB :=
  let c := can_craft_item db u item
  if c.1 then
    match db.crafting_recipes.find? (fun r => r.result_item = item) with
    | some recipe =>
      ((true, "Successfully crafted " ++ item ++ " (" ++ recipe.result_rarity ++ ")!"),
        runStmts db (craftStmts recipe u))
    | Option.none => ((false, c.2.1), db)
  else
    ((false, c.2.1), db)

/-- The database as left by an interruption after the first `k` committed
statements of a feasible craft. -/
def craftInterrupted (db : DB) (recipe : Recipe) (u : Int) (k : Nat) : DB :=
  runStmts db ((craftStmts recipe u).take k)

/-! ### Quest engine (`QuestManager`) -/

/-- Placeholder substitution applied to a choice's display text
(`processed_choice["text"] = choice_text`). -/
def substChoice (state : List (String × Val)) (c : ChoiceDef) : ChoiceDef :=
  { c with text := substituteVars state c.text }

/-- The condition loop of `_process_dynamic_content`: every
`(condition_key, condition_value)` pair must satisfy
`quest_state["state"].get(condition_key) == condition_value`, where a missing
key reads as Python `None`. -/
def conditionsMet (state : List (String × Val)) (conds : List (String × Val)) : Bool :=
  conds.all (fun kv => decide ((alookup state kv.1).getD Val.none = kv.2))

/-- The choice loop of `_process_dynamic_content`: skip any choice with
unsatisfied conditions, substitute placeholders in the text of the rest. -/
def processChoiceList (state : List (String × Val)) : List ChoiceDef → List ChoiceDef
  | [] => []
  | c :: rest =>
    match c.conditions with
    | some conds =>
      if conditionsMet state conds then
        substChoice state c :: processChoiceList state rest
      else
        processChoiceList state rest
    | Option.none => substChoice state c :: processChoiceList state rest

/-- `QuestManager._process_dynamic_content`. -/
def process_dynamic_content (scene : SceneDef) (state : List (String × Val)) :
    SceneDef :=
  { narrative := scene.narrative.map (substituteVars state),
    choices := scene.choices.map (processChoiceList state) }

/-- The key `f"scene_\x7bcurrent_scene\x7d"` into the scenes dictionary. -/
def sceneKey (v : Val) : String := "scene_" ++ pyStr v

/-- `QuestManager._get_scene_data` (read-only). -/
def get_scene_data (c : Content) (w : World) (u : Int) : Bool × String × Payload :=
  match alookup w.active_quests u with
  | Option.none => (false, "You are not currently on a quest.", Payload.empty)
  | some qs =>
    match alookup c.quests qs.quest_name with
    | Option.none =>
      (false, "Quest '" ++ qs.quest_name ++ "' not found.", Payload.empty)
    | some qi =>
      match alookup qi.scenes (sceneKey qs.current_scene) with
      | Option.none =>
        (false, "Scene " ++ pyStr qs.current_scene ++ " not found for quest '"
          ++ qs.quest_name ++ "'.", Payload.empty)
      | some sc => (true, "", Payload.scene (process_dynamic_content sc qs.state))

/-- The failure message of `start_quest` when the player already has an active
quest (any quest: the check is `user_id in self.active_quests`). -/
def alreadyOnQuestMsg : String :=
  "You are already on a quest. Use /active to see your current quest or /abandon to quit it."

/-- `QuestManager.start_quest`. -/
def start_quest (c : Content) (w : World) (u : Int) (qn : String) (t : Nat) :
    (Bool × String × Payload) × World :=
  if (alookup w.active_quests u).isSome then
    ((false, alreadyOnQuestMsg, Payload.empty), w)
  else
    match alookup c.quests qn with
    | Option.none => ((false, "Quest '" ++ qn ++ "' not found.", Payload.empty), w)
    | some _ =>
      let w' : World :=
        { db := { w.db with
            user_quests :=
              questInsertOrReplace w.db.user_quests u qn "active" (Val.int 1) t },
          active_quests := setk w.active_quests u ⟨qn, Val.int 1, [], []⟩ }
      (get_scene_data c w' u, w')

/-- One bullet line of the completion reward text, in emission order. -/
inductive Bullet where
  | xp : Int → Bullet
  | item : String → Int → Bullet
  | lore : String → String → Bullet
deriving DecidableEq

/-- The text of one bullet line. -/
def renderBullet : Bullet → String
  | Bullet.xp n => "• " ++ toString n ++ " XP\n"
  | Bullet.item name q => "• " ++ toString q ++ "x " ++ name ++ "\n"
  | Bullet.lore item cat => "• Discovered: " ++ item ++ " (" ++ cat ++ ")\n"

/-- The bullet lines `_complete_quest` appends to `reward_text`, in program
order: the XP block first, then the item block, then the discovery block. -/
def rewardBullets (r : RewardsDef) : List Bullet :=
  (match r.xp with
    | some n => [Bullet.xp n]
    | Option.none => [])
  ++ (match r.items with
    | some its => its.map (fun kv => Bullet.item kv.1 kv.2)
    | Option.none => [])
  ++ (match r.discoveries with
    | some ds => (ds.map (fun cd => cd.2.map (fun i => Bullet.lore i cd.1))).flatten
    | Option.none => [])

/-- The full `reward_text` string. -/
def rewardText (r : RewardsDef) : String :=
  "Quest completed! You've earned:\n" ++ String.join ((rewardBullets r).map renderBullet)

/-- The inventory effect of one item reward in `_complete_quest`: increment
the existing row, or insert one with the item's content-declared rarity. -/
def applyRewardItem (c : Content) (u : Int) (db : DB) (kv : String × Int) : DB :=
  if invRowExists db u kv.1 then
    { db with
      user_inventory := db.user_inventory.map (fun r =>
        if r.user_id = u ∧ r.item_name = kv.1 then
          { r with quantity := r.quantity + kv.2 } else r) }
  else
    { db with user_inventory := db.user_inventory ++ [⟨u, kv.1, itemRarity c kv.1, kv.2⟩] }

/-- `QuestManager._complete_quest`. -/
def complete_quest (c : Content) (w : World) (u : Int) (t : Nat) :
    (Bool × String × Payload) × World :=
  match alookup w.active_quests u with
  | Option.none => ((false, "You are not currently on a quest.", Payload.empty), w)
  | some qs =>
    match alookup c.quests qs.quest_name with
    | Option.none =>
      ((false, "Quest '" ++ qs.quest_name ++ "' not found.", Payload.empty), w)
    | some qi =>
      let r := qi.rewards
      let db1 := { w.db with
        user_quests := questUpdateCompleted w.db.user_quests u qs.quest_name t }
      let db2 := { db1 with
        user_progress := recordDiscovery db1.user_progress u "quests" qs.quest_name t }
      let db3 :=
        match r.items with
        | some its => its.foldl (applyRewardItem c u) db2
        | Option.none => db2
      let db4 :=
        match r.discoveries with
        | some ds =>
          { db3 with
            user_progress :=
              ((ds.map (fun cd => cd.2.map (fun i => (cd.1, i)))).flatten).foldl
                (fun pr ci => recordDiscovery pr u ci.1 ci.2 t) db3.user_progress }
        | Option.none => db3
      ((true, rewardText r, Payload.completion qs.quest_name r (rewardText r)),
        { db := db4, active_quests := delk w.active_quests u })

/-- The `items_gained` loop of `make_choice` on the per-run inventory. -/
def applyGained (inv g : List (String × Int)) : List (String × Int) :=
  g.foldl
    (fun inv kv =>
      match alookup inv kv.1 with
      | some q => setk inv kv.1 (q + kv.2)
      | Option.none => setk inv kv.1 kv.2)
    inv

/-- The `items_lost` loop of `make_choice`: decrement when present, delete
the entry when the decremented value is zero or below. -/
def applyLost (inv l : List (String × Int)) : List (String × Int) :=
  l.foldl
    (fun inv kv =>
      match alookup inv kv.1 with
      | some q => if q - kv.2 ≤ 0 then delk inv kv.1 else setk inv kv.1 (q - kv.2)
      | Option.none => inv)
    inv

/-- The outcome block of `make_choice`: state-variable assignments, then item
gains, then item losses, all on the player's in-process run record. -/
def applyOutcomes (ch : ChoiceDef) (qs : ActiveQuest) : ActiveQuest :=
  match ch.outcomes with
  | Option.none => qs
  | some o =>
    let st :=
      match o.state_changes with
      | some scs => scs.foldl (fun s kv => setk s kv.1 kv.2) qs.state
      | Option.none => qs.state
    let inv1 :=
      match o.items_gained with
      | some g => applyGained qs.inventory g
      | Option.none => qs.inventory
    let inv2 :=
      match o.items_lost with
      | some l => applyLost inv1 l
      | Option.none => inv1
    { qs with state := st, inventory := inv2 }

/-- `QuestManager.make_choice`.  The Python code mutates the run record held
in `self.active_quests` in place; the embedding makes that explicit by
writing the updated record back on every path that reaches the mutation. -/
def make_choice (c : Content) (w : World) (u : Int) (cid : String) (t : Nat) :
    (Bool × String × Payload) × World :=
  match alookup w.active_quests u with
  | Option.none => ((false, "You are not currently on a quest.", Payload.empty), w)
  | some qs =>
    match alookup c.quests qs.quest_name with
    | Option.none =>
      ((false, "Quest '" ++ qs.quest_name ++ "' not found.", Payload.empty), w)
    | some qi =>
      match alookup qi.scenes (sceneKey qs.current_scene) with
      | Option.none =>
        ((false, "Scene " ++ pyStr qs.current_scene ++ " not found for quest '"
          ++ qs.quest_name ++ "'.", Payload.empty), w)
      | some sc =>
        match (sc.choices.getD []).find? (fun ch => ch.id = cid) with
        | Option.none =>
          ((false, "Choice '" ++ cid ++ "' not found in current scene.",
            Payload.empty), w)
        | some ch =>
          let db1 := { w.db with
            decision_logs :=
              decInsertOrReplace w.db.decision_logs u qs.quest_name
                (sceneKey qs.current_scene) cid t }
          let qs1 := applyOutcomes ch qs
          match ch.next_scene with
          | some ns =>
            if truthy ns then
              let qs2 := { qs1 with current_scene := ns }
              let w2 : World :=
                { db := { db1 with
                    user_quests :=
                      questUpdateScene db1.user_quests u qs.quest_name ns },
                  active_quests := setk w.active_quests u qs2 }
              if ns = Val.str "complete" then complete_quest c w2 u t
              else (get_scene_data c w2 u, w2)
            else
              ((false, "No next scene specified for this choice.", Payload.empty),
                { db := db1, active_quests := setk w.active_quests u qs1 })
          | Option.none =>
            ((false, "No next scene specified for this choice.", Payload.empty),
              { db := db1, active_quests := setk w.active_quests u qs1 })

/-- One entry of the list `QuestManager.get_inventory` returns. -/
structure InvView where
  name : String
  rarity : String
  quantity : Int
  description : String
deriving DecidableEq

/-- `QuestManager.get_inventory`: the durable rows with positive quantity,
decorated with content descriptions. -/
def get_inventory (c : Content) (db : DB) (u : Int) : List InvView :=
  (db.user_inventory.filter (fun r => r.user_id = u ∧ r.quantity > 0)).map
    (fun r => ⟨r.item_name, r.rarity, r.quantity, itemDescription c r.item_name⟩)

/-- A step of the operation sequences of the non-negativity invariant:
a quest choice (with its wall-clock time) or a craft. -/
inductive Op where
  | choice : Int → String → Nat → Op
  | craft : Int → String → Op
deriving DecidableEq

/-- Apply one operation to the world. -/
def stepOp (c : Content) (w : World) : Op → World
  | Op.choice u cid t => (make_choice c w u cid t).2
  | Op.craft u item => { w with db := (craft_item w.db u item).2 }

/-- Apply a sequence of operations. -/
def runOps (c : Content) (w : World) (ops : List Op) : World :=
  ops.foldl (stepOp c) w

/-! ### Invariant predicates (executable) -/

/-- Every durable inventory row has positive quantity. -/
def dbInvPosB (db : DB) : Bool :=
  db.user_inventory.all (fun r => decide (0 < r.quantity))

/-- Every per-run inventory entry of every active run has positive quantity. -/
def runInvPosB (w : World) : Bool :=
  w.active_quests.all (fun e => e.2.inventory.all (fun kv => decide (0 < kv.2)))

/-- The inventory non-negativity invariant over the whole state: no stored
entry — durable row or per-run entry — with quantity zero or below. -/
def invPosB (w : World) : Bool :=
  dbInvPosB w.db && runInvPosB w

/-- Content well-formedness: every `items_gained` quantity of every choice and
every completion reward item quantity is positive. -/
def posContentB (c : Content) : Bool :=
  c.quests.all (fun q =>
    q.2.scenes.all (fun s =>
      (s.2.choices.getD []).all (fun ch =>
        match ch.outcomes with
        | some o => (o.items_gained.getD []).all (fun kv => decide (0 < kv.2))
        | Option.none => true))
    && (q.2.rewards.items.getD []).all (fun kv => decide (0 < kv.2)))

/-- Classification of a reward bullet for the ordering contract: experience
bullets sort before item bullets, which sort before lore bullets. -/
def bulletRank : Bullet → Nat
  | Bullet.xp _ => 0
  | Bullet.item _ _ => 1
  | Bullet.lore _ _ => 2

/-- The choice-visibility predicate as the specification words it: a choice
with no conditions is always visible, otherwise all AND-combined equality
checks against the state-variable map must hold. -/
def choiceVisibleSpec (state : List (String × Val)) (c : ChoiceDef) : Bool :=
  match c.conditions with
  | Option.none => true
  | some conds => conds.all (fun kv => decide ((alookup state kv.1).getD Val.none = kv.2))

/-! ### Concrete scenarios used by the theorems -/

/-- The empty database. -/
def emptyDB : DB := ⟨[], [], [], [], []⟩

/-- Recipe: 1 Emberdust Vial makes an Inferno Fang. -/
def fangRecipe : Recipe := ⟨"Inferno Fang", "rare", [("Emberdust Vial", 1)], []⟩

/-- A player holding exactly one Emberdust Vial, with the fang recipe known. -/
def craftDB : DB :=
  { emptyDB with
    user_inventory := [⟨1, "Emberdust Vial", "common", 1⟩],
    crafting_recipes := [fangRecipe] }

/-- A recipe with no item requirements but two required quests. -/
def twoQuestRecipe : Recipe := ⟨"Inferno Fang", "rare", [], ["Q1", "Q2"]⟩

/-- A player who completed only the first of the recipe's two required
quests. -/
def twoQuestDB : DB :=
  { emptyDB with
    user_progress := [⟨1, "quests", "Q1", true, some 0⟩],
    crafting_recipes := [twoQuestRecipe] }

/-- Scene-1 choice of the end-to-end scenario: gain one Emberdust Vial and
move to scene 2. -/
def emberChoice : ChoiceDef :=
  { id := "3A", text := "Take the vial",
    outcomes := some { items_gained := some [("Emberdust Vial", 1)] },
    next_scene := some (Val.int 2) }

/-- The two-scene quest of the end-to-end scenario. -/
def emberQuest : QuestInfo :=
  { scenes :=
      [("scene_1", { narrative := some "A fire.", choices := some [emberChoice] }),
       ("scene_2", { narrative := some "After.", choices := some [] })] }

/-- Content store holding only the end-to-end quest. -/
def emberContent : Content := { quests := [("The Ember's Awakening", emberQuest)] }

/-- World: player `u` has an active run of the end-to-end quest on scene 1 and
an empty database. -/
def emberW (u : Int) : World :=
  { db := emptyDB,
    active_quests := [(u, ⟨"The Ember's Awakening", Val.int 1, [], []⟩)] }

/-- A quest whose single scene has a self-looping choice, so the same
(quest, scene, choice) triple can be applied twice. -/
def loopContent : Content :=
  { quests :=
      [("Q",
        { scenes :=
            [("scene_1",
              { choices := some [{ id := "c", next_scene := some (Val.int 1) }] })] })] }

/-- World: player 1 is on the self-looping quest. -/
def loopW : World :=
  { db := emptyDB, active_quests := [(1, ⟨"Q", Val.int 1, [], []⟩)] }

/-- Content store holding quests named `A` and `B`, each with one scene. -/
def abContent : Content :=
  { quests :=
      [("A", { scenes := [("scene_1", { choices := some [] })] }),
       ("B", { scenes := [("scene_1", { choices := some [] })] })] }

/-- World: player 1 has an active run of quest `A` (and none of `B`). -/
def busyW : World :=
  { db := emptyDB, active_quests := [(1, ⟨"A", Val.int 1, [], []⟩)] }

/-- A quest whose scene-1 choice grants zero units of an item. -/
def zeroGainContent : Content :=
  { quests :=
      [("Z",
        { scenes :=
            [("scene_1",
              { choices := some
                  [{ id := "c",
                     outcomes := some { items_gained := some [("X", 0)] },
                     next_scene := some (Val.int 1) }] })] })] }

/-- World: player 1 is on the zero-gain quest with every inventory empty. -/
def zeroGainW : World :=
  { db := emptyDB, active_quests := [(1, ⟨"Z", Val.int 1, [], []⟩)] }

/-- Rewards carrying both experience and an item. -/
def xpItemRewards : RewardsDef := { xp := some 50, items := some [("X", 1)] }

/-- A quest whose completion grants experience and an item, reached by a
scene-1 choice that jumps straight to `complete`. -/
def xpItemContent : Content :=
  { quests :=
      [("R",
        { scenes :=
            [("scene_1",
              { choices := some [{ id := "c", next_scene := some (Val.str "complete") }] })],
          rewards := xpItemRewards })] }

/-- World: player 1 is on the reward quest. -/
def xpItemW : World :=
  { db := emptyDB, active_quests := [(1, ⟨"R", Val.int 1, [], []⟩)] }

/-- A choice that mutates state but names no next scene. -/
def deadEndChoice : ChoiceDef :=
  { id := "d",
    outcomes := some { state_changes := some [("met_elder", Val.bool true)],
                       items_gained := some [("Relic Shard", 2)] } }

/-- A quest whose single scene contains only the dead-end choice. -/
def deadEndContent : Content :=
  { quests :=
      [("D", { scenes := [("scene_1", { choices := some [deadEndChoice] })] })] }

/-- World: player 1 is on the dead-end quest. -/
def deadEndW : World :=
  { db := emptyDB, active_quests := [(1, ⟨"D", Val.int 1, [], []⟩)] }

/-! ### Invariant predicates (Prop level) and the placeholder head -/

/-- The opening brace every placeholder starts with. -/
def lbrace : Char := '\x7b'

/-- Every durable inventory row of the database has positive quantity. -/
def DbPos (db : DB) : Prop := ∀ r ∈ db.user_inventory, 0 < r.quantity

/-- The whole-state invariant: positive durable rows and positive per-run
entries. -/
def InvPos (w : World) : Prop :=
  DbPos w.db ∧ ∀ e ∈ w.active_quests, ∀ kv ∈ e.2.inventory, (0:Int) < kv.2

/-- A choice's outcome grants only positive quantities. -/
def PosOutcomes (ch : ChoiceDef) : Prop :=
  ∀ o, ch.outcomes = some o → ∀ kv ∈ o.items_gained.getD [], (0:Int) < kv.2

/-- Content well-formedness, Prop level: positive gain quantities everywhere
and positive completion-reward item quantities. -/
def PosContent (c : Content) : Prop :=
  ∀ q ∈ c.quests,
    (∀ s ∈ q.2.scenes, ∀ ch ∈ s.2.choices.getD [], PosOutcomes ch)
    ∧ (∀ kv ∈ q.2.rewards.items.getD [], (0:Int) < kv.2)

/-! ### Generic helper lemmas -/

section AssocLemmas

variable {α β : Type} [DecidableEq α]

theorem alookup_mem {l : List (α × β)} {k : α} {v : β}
    (h : alookup l k = some v) : (k, v) ∈ l := by
  induction l with
  | nil => simp [alookup] at h
  | cons kv rest ih =>
    cases kv with
    | mk k' v' =>
      rw [alookup] at h
      by_cases hk : k' = k
      · subst hk
        simp at h
        subst h
        exact List.mem_cons_self _ _
      · simp [hk] at h
        exact List.mem_cons_of_mem _ (ih h)

theorem mem_setk {l : List (α × β)} {k : α} {v : β} {x : α × β}
    (h : x ∈ setk l k v) : x = (k, v) ∨ x ∈ l := by
  induction l with
  | nil => simp [setk] at h; simp [h]
  | cons kv rest ih =>
    cases kv with
    | mk k' v' =>
      rw [setk] at h
      by_cases hk : k' = k
      · simp only [if_pos hk] at h
        rcases List.mem_cons.mp h with h1 | h1
        · exact Or.inl h1
        · exact Or.inr (List.mem_cons_of_mem _ h1)
      · simp only [if_neg hk] at h
        rcases List.mem_cons.mp h with h1 | h1
        · exact Or.inr (h1 ▸ List.mem_cons_self _ _)
        · rcases ih h1 with h2 | h2
          · exact Or.inl h2
          · exact Or.inr (List.mem_cons_of_mem _ h2)

theorem mem_delk {l : List (α × β)} {k : α} {x : α × β}
    (h : x ∈ delk l k) : x ∈ l :=
  List.mem_of_mem_filter h

end AssocLemmas

/-- The fuel argument is irrelevant as soon as it covers the length of the
string being scanned. -/
theorem replacePatAux_fuel (p0 : Char) (ps rep : List Char) :
    ∀ (f1 : Nat), ∀ (s : List Char), ∀ (f2 : Nat), s.length ≤ f1 → s.length ≤ f2 →
      replacePatAux p0 ps rep f1 s = replacePatAux p0 ps rep f2 s := by
  intro f1
  induction f1 with
  | zero =>
    intro s f2 h1 _
    have : s = [] := List.length_eq_zero.mp (Nat.le_zero.mp h1)
    subst this
    cases f2 <;> rfl
  | succ f ih =>
    intro s f2 h1 h2
    cases s with
    | nil => cases f2 <;> rfl
    | cons c rest =>
      cases f2 with
      | zero => exact absurd h2 (by simp)
      | succ g =>
        simp only [replacePatAux]
        have hr : rest.length ≤ f := by
          simpa using Nat.lt_succ_iff.mp (Nat.lt_of_lt_of_le (by simp) h1)
        have hg : rest.length ≤ g := by
          simpa using Nat.lt_succ_iff.mp (Nat.lt_of_lt_of_le (by simp) h2)
        by_cases hm : startsWithPat p0 ps (c :: rest) = true
        · rw [if_pos hm, if_pos hm,
            ih (rest.drop ps.length) g
              (Nat.le_trans (by simp [List.length_drop]) hr)
              (Nat.le_trans (by simp [List.length_drop]) hg)]
        · rw [if_neg hm, if_neg hm, ih rest g hr hg]


theorem foldl_preserve {σ α : Type} {P : σ → Prop} (f : σ → α → σ) (l : List α)
    (h : ∀ s a, a ∈ l → P s → P (f s a)) {s : σ} (hs : P s) : P (l.foldl f s) := by
  induction l generalizing s with
  | nil => exact hs
  | cons a rest ih =>
    exact ih (fun s b hb => h s b (List.mem_cons_of_mem _ hb))
      (h s a (List.mem_cons_self _ _) hs)

theorem runStmts_append (db : DB) (l1 l2 : List (DB → DB)) :
    runStmts db (l1 ++ l2) = runStmts (runStmts db l1) l2 := by
  simp [runStmts, List.foldl_append]

theorem pairwise_rank_const {l : List Bullet} {k : Nat}
    (h : ∀ b ∈ l, bulletRank b = k) :
    l.Pairwise (fun a b => bulletRank a ≤ bulletRank b) := by
  induction l with
  | nil => exact List.Pairwise.nil
  | cons a rest ih =>
    refine List.Pairwise.cons (fun b hb => ?_)
      (ih (fun b hb => h b (List.mem_cons_of_mem _ hb)))
    rw [h a (List.mem_cons_self _ _), h b (List.mem_cons_of_mem _ hb)]

/-! ### C1 — craft atomicity -/

/-- C1: the claim asserts that an interruption of `craft(p, item)` between
consumption and production can only leave the fully-pre-craft or the
fully-post-craft inventory.  The code commits each SQL statement separately
(`execute_query` commits after every non-SELECT), so stopping after the two
consumption statements of a feasible craft durably leaves an inventory — here
the empty one — that is neither the pre-craft inventory (one Emberdust Vial)
nor the post-craft inventory (one Inferno Fang): the claim fails on the code. -/
theorem c1_craft_interruption_not_atomic :
    (can_craft_item craftDB 1 "Inferno Fang").1 = true ∧
    craftDB.user_inventory = [⟨1, "Emberdust Vial", "common", 1⟩] ∧
    ((craft_item craftDB 1 "Inferno Fang").2).user_inventory
      = [⟨1, "Inferno Fang", "rare", 1⟩] ∧
    (craftStmts fangRecipe 1).length = 3 ∧
    (craftInterrupted craftDB fangRecipe 1 2).user_inventory = [] ∧
    (craftInterrupted craftDB fangRecipe 1 2).user_inventory
      ≠ craftDB.user_inventory ∧
    (craftInterrupted craftDB fangRecipe 1 2).user_inventory
      ≠ ((craft_item craftDB 1 "Inferno Fang").2).user_inventory := by
  decide

/-! ### C5 — crafting feasibility -/

/-- C5 counterexample: the claim requires *every* quest-completion predicate
of the recipe to hold, but `can_craft_item` checks only the first entry of
`quest_requirements`.  With recipe requirements `["Q1", "Q2"]` and only `Q1`
completed, the code reports the craft feasible. -/
theorem c5_only_first_quest_checked :
    twoQuestRecipe.quest_requirements = ["Q1", "Q2"] ∧
    twoQuestDB.crafting_recipes.find? (fun r => r.result_item = "Inferno Fang")
      = some twoQuestRecipe ∧
    hasCompletedQuest twoQuestDB 1 "Q2" = false ∧
    (can_craft_item twoQuestDB 1 "Inferno Fang").1 = true := by
  decide

/-- C5 amended: when a recipe for the item exists, `can_craft_item` reports
feasible iff every required input is available in at least the required
quantity AND — when the recipe lists quest requirements — the *first* listed
quest has been completed (later entries are never consulted). -/
theorem c5_can_craft_iff (db : DB) (u : Int) (item : String) (recipe : Recipe)
    (h : db.crafting_recipes.find? (fun r => r.result_item = item) = some recipe) :
    (can_craft_item db u item).1 = true ↔
      ((∀ rr ∈ recipe.requirements, rr.2 ≤ availableQty db u rr.1) ∧
        match recipe.quest_requirements with
        | [] => True
        | q0 :: _ => hasCompletedQuest db u q0 = true) := by
  by_cases hm :
      recipe.requirements.filter (fun rr => decide (availableQty db u rr.1 < rr.2)) = []
  · have hall : ∀ rr ∈ recipe.requirements, rr.2 ≤ availableQty db u rr.1 := by
      intro rr hrr
      have := List.filter_eq_nil_iff.mp hm rr hrr
      simp at this
      omega
    cases hq : recipe.quest_requirements with
    | nil =>
      simp [can_craft_item, h, hm, hq, hall]
      exact fun a b hab => hall (a, b) hab
    | cons q0 rest =>
      by_cases hc : hasCompletedQuest db u q0 = true
      · simp [can_craft_item, h, hm, hq, hc, hall]
        exact fun a b hab => hall (a, b) hab
      · simp [can_craft_item, h, hm, hq, hc, hall]
  · have hex : ¬ ∀ rr ∈ recipe.requirements, rr.2 ≤ availableQty db u rr.1 := by
      intro hall
      apply hm
      apply List.filter_eq_nil_iff.mpr
      intro rr hrr
      have := hall rr hrr
      simp
      omega
    simp [can_craft_item, h, hm, hex]
    intro h2
    exact absurd (fun rr hrr => h2 rr.1 rr.2 (by simpa using hrr) : ∀ rr ∈ recipe.requirements, rr.2 ≤ availableQty db u rr.1) hex

/-- Witness for `c5_can_craft_iff` at the concrete fang recipe. -/
theorem c5_can_craft_iff_witness :
    (can_craft_item craftDB 1 "Inferno Fang").1 = true :=
  (c5_can_craft_iff craftDB 1 "Inferno Fang" fangRecipe (by decide)).mpr
    ⟨by decide, trivial⟩

/-! ### C7 — completion reward ordering -/

/-- C7 counterexample: the claim says completion payloads list items first,
then experience, then lore; the code emits the XP bullet before the item
bullets, as both the bullet list and the rendered completion message show. -/
theorem c7_xp_listed_before_items :
    rewardBullets xpItemRewards = [Bullet.xp 50, Bullet.item "X" 1] ∧
    (complete_quest xpItemContent xpItemW 1 7).1.2.1
      = "Quest completed! You've earned:\n• 50 XP\n• 1x X\n" := by
  decide

/-- C7 amended: for every rewards specification, the completion payload lists
rewards in the order experience, then items, then lore discoveries. -/
theorem c7_reward_order (r : RewardsDef) :
    (rewardBullets r).Pairwise (fun a b => bulletRank a ≤ bulletRank b) := by
  have hxp : ∀ b ∈ (match r.xp with
      | some n => [Bullet.xp n]
      | Option.none => []), bulletRank b = 0 := by
    cases r.xp <;> simp_all [bulletRank]
  have hitem : ∀ b ∈ (match r.items with
      | some its => its.map (fun kv : String × Int => Bullet.item kv.1 kv.2)
      | Option.none => ([] : List Bullet)), bulletRank b = 1 := by
    cases r.items with
    | none => simp
    | some its =>
      intro b hb
      rw [List.mem_map] at hb
      obtain ⟨kv, _, rfl⟩ := hb
      rfl
  have hlore : ∀ b ∈ (match r.discoveries with
      | some ds => (ds.map (fun cd : String × List String => cd.2.map (fun i => Bullet.lore i cd.1))).flatten
      | Option.none => ([] : List Bullet)), bulletRank b = 2 := by
    cases r.discoveries with
    | none => simp
    | some ds =>
      intro b hb
      rw [List.mem_flatten] at hb
      obtain ⟨l, hl, hbl⟩ := hb
      rw [List.mem_map] at hl
      obtain ⟨cd, _, rfl⟩ := hl
      rw [List.mem_map] at hbl
      obtain ⟨i, _, rfl⟩ := hbl
      rfl
  rw [rewardBullets, List.pairwise_append]
  refine ⟨?_, pairwise_rank_const hlore, ?_⟩
  · rw [List.pairwise_append]
    refine ⟨pairwise_rank_const hxp, pairwise_rank_const hitem, ?_⟩
    intro a ha b hb
    rw [hxp a ha, hitem b hb]
    omega
  · intro a ha b hb
    rw [hlore b hb]
    rcases List.mem_append.mp ha with h2 | h2
    · rw [hxp a h2]; omega
    · rw [hitem a h2]; omega

/-! ### C8 — placeholder substitution -/

theorem isPrefixOf_append_self (l t : List Char) : l.isPrefixOf (l ++ t) = true := by
  induction l with
  | nil => simp [List.isPrefixOf]
  | cons a as ih => simp [List.isPrefixOf, ih]

theorem replacePatAux_no_head (p0 : Char) (ps rep : List Char) :
    ∀ (fuel : Nat) (s : List Char), (∀ ch ∈ s, ch ≠ p0) →
      replacePatAux p0 ps rep fuel s = s := by
  intro fuel
  induction fuel with
  | zero => intro s _; cases s <;> rfl
  | succ f ih =>
    intro s hs
    cases s with
    | nil => rfl
    | cons c rest =>
      have hc : c ≠ p0 := hs c (List.mem_cons_self _ _)
      have hm : startsWithPat p0 ps (c :: rest) = false := by
        simp [startsWithPat, hc]
      rw [replacePatAux, if_neg (by simp [hm]),
        ih rest (fun ch hch => hs ch (List.mem_cons_of_mem _ hch))]

theorem containsPat_occurrence (p0 : Char) (ps : List Char) :
    ∀ (pre post : List Char),
      containsPat p0 ps (pre ++ (p0 :: ps) ++ post) = true := by
  intro pre post
  induction pre with
  | nil => simp [containsPat, startsWithPat, isPrefixOf_append_self]
  | cons c pre' ih =>
    simp [containsPat]
    right
    simpa using ih

theorem replacePatAux_occurrence (p0 : Char) (ps rep post : List Char)
    (hpost : ∀ ch ∈ post, ch ≠ p0) :
    ∀ (pre : List Char) (fuel : Nat),
      (pre ++ (p0 :: ps) ++ post).length ≤ fuel →
      (∀ ch ∈ pre, ch ≠ p0) →
      replacePatAux p0 ps rep fuel (pre ++ (p0 :: ps) ++ post)
        = pre ++ rep ++ post := by
  intro pre
  induction pre with
  | nil =>
    intro fuel hfuel _
    cases fuel with
    | zero => simp at hfuel
    | succ f =>
      rw [List.nil_append, List.cons_append, replacePatAux,
        if_pos (by simp [startsWithPat, isPrefixOf_append_self]),
        List.drop_left ps post,
        replacePatAux_no_head p0 ps rep f post hpost]
      simp
  | cons c pre' ih =>
    intro fuel hfuel hpre
    cases fuel with
    | zero => simp at hfuel
    | succ f =>
      have hc : c ≠ p0 := hpre c (List.mem_cons_self _ _)
      rw [List.cons_append, List.cons_append, replacePatAux,
        if_neg (by simp [startsWithPat, hc])]
      have hlen : (pre' ++ p0 :: ps ++ post).length ≤ f := by
        simp at hfuel ⊢
        omega
      rw [ih f hlen (fun ch hch => hpre ch (List.mem_cons_of_mem _ hch))]
      simp

/-- The character-list shape of a placeholder. -/
theorem placeholderOf_data (k : String) :
    (placeholderOf k).data = lbrace :: (k.data ++ ['\x7d']) := by
  rw [placeholderOf, String.data_append, String.data_append]
  rfl

/-- C8: scene rendering substitutes state variables into narrative text and
leaves unmatched placeholders alone, and never fails.  Part one: if no state
variable's placeholder occurs in the text, the text is returned unchanged.
Part two: a placeholder of a bound variable, embedded in brace-free
surroundings, is replaced by `str(value)`.  Parts three and four: the two
concrete rendering cases of the specification, through
`_process_dynamic_content`. -/
theorem c8_placeholder_substitution :
    (∀ (state : List (String × Val)) (text : String),
        (∀ kv ∈ state, pyContains text (placeholderOf kv.1) = false) →
        substituteVars state text = text)
    ∧ (∀ (k : String) (v : Val) (pre post : String),
        (∀ ch ∈ pre.data, ch ≠ lbrace) → (∀ ch ∈ post.data, ch ≠ lbrace) →
        substituteVars [(k, v)] (pre ++ placeholderOf k ++ post)
          = pre ++ pyStr v ++ post)
    ∧ (process_dynamic_content { narrative := some "You are rank \x7brank\x7d." }
        [("rank", Val.str "3")]).narrative = some "You are rank 3."
    ∧ (process_dynamic_content { narrative := some "You hold \x7bmystery\x7d." }
        [("rank", Val.str "3")]).narrative = some "You hold \x7bmystery\x7d." := by
  refine ⟨?_, ?_, by decide, by decide⟩
  · intro state text h
    induction state with
    | nil => rfl
    | cons kv rest ih =>
      rw [substituteVars, List.foldl_cons,
        if_neg (by simp [h kv (List.mem_cons_self _ _)])]
      exact ih (fun kv' hkv' => h kv' (List.mem_cons_of_mem _ hkv'))
  · intro k v pre post hpre hpost
    have hdata : (pre ++ placeholderOf k ++ post).data
        = pre.data ++ (lbrace :: (k.data ++ ['\x7d'])) ++ post.data := by
      rw [String.data_append, String.data_append, placeholderOf_data]
    rw [substituteVars, List.foldl_cons, List.foldl_nil]
    rw [if_pos (by
      rw [pyContains]
      rw [placeholderOf_data]
      rw [hdata]
      exact containsPat_occurrence lbrace (k.data ++ ['\x7d']) pre.data post.data)]
    rw [pyReplace]
    rw [placeholderOf_data]
    apply String.ext
    show replacePat lbrace (k.data ++ ['\x7d']) (pyStr v).data
        (pre ++ placeholderOf k ++ post).data = _
    rw [hdata, replacePat,
      replacePatAux_occurrence lbrace (k.data ++ ['\x7d']) (pyStr v).data
        post.data hpost pre.data _ (Nat.le_refl _) hpre,
      String.data_append, String.data_append]

/-- Witness for `c8_placeholder_substitution`: both hypothesis-bearing parts
applied at concrete inputs. -/
theorem c8_placeholder_substitution_witness :
    substituteVars [("rank", Val.str "3")] "You hold \x7bmystery\x7d."
        = "You hold \x7bmystery\x7d."
    ∧ substituteVars [("rank", Val.str "3")] ("You are rank " ++ placeholderOf "rank" ++ ".")
        = "You are rank " ++ pyStr (Val.str "3") ++ "." :=
  ⟨c8_placeholder_substitution.1 [("rank", Val.str "3")] "You hold \x7bmystery\x7d."
      (by decide),
    c8_placeholder_substitution.2.1 "rank" (Val.str "3") "You are rank " "."
      (by decide) (by decide)⟩

/-! ### C9 — conditional choice filtering -/

/-- C9: the rendered choice list is exactly the filter of the scene's choices
by the AND-combined equality conditions (with text substitution applied to
the survivors); a choice with no conditions is always present. -/
theorem c9_conditional_choice_filtering :
    (∀ (state : List (String × Val)) (cs : List ChoiceDef),
        processChoiceList state cs
          = (cs.filter (choiceVisibleSpec state)).map (substChoice state))
    ∧ (∀ (state : List (String × Val)) (sc : SceneDef) (cs : List ChoiceDef),
        sc.choices = some cs →
        (process_dynamic_content sc state).choices
          = some ((cs.filter (choiceVisibleSpec state)).map (substChoice state)))
    ∧ (∀ (state : List (String × Val)) (cs : List ChoiceDef) (c : ChoiceDef),
        c ∈ cs → c.conditions = Option.none →
        substChoice state c ∈ processChoiceList state cs) := by
  have main : ∀ (state : List (String × Val)) (cs : List ChoiceDef),
      processChoiceList state cs
        = (cs.filter (choiceVisibleSpec state)).map (substChoice state) := by
    intro state cs
    induction cs with
    | nil => rfl
    | cons c rest ih =>
      cases hc : c.conditions with
      | none =>
        simp only [processChoiceList, hc]
        rw [List.filter_cons, if_pos (by simp [choiceVisibleSpec, hc])]
        rw [List.map_cons, ih]
      | some conds =>
        by_cases hm : conditionsMet state conds = true
        · simp only [processChoiceList, hc]
          rw [if_pos hm]
          rw [List.filter_cons,
            if_pos (by simp only [choiceVisibleSpec, hc]; exact hm)]
          rw [List.map_cons, ih]
        · simp only [processChoiceList, hc]
          rw [if_neg hm]
          rw [List.filter_cons,
            if_neg (by simp only [choiceVisibleSpec, hc]; exact hm)]
          exact ih
  refine ⟨main, ?_, ?_⟩
  · intro state sc cs hcs
    rw [process_dynamic_content, hcs]
    rw [Option.map_some', main]
  · intro state cs c hcm hcond
    rw [main]
    exact List.mem_map_of_mem _
      (List.mem_filter.mpr ⟨hcm, by simp [choiceVisibleSpec, hcond]⟩)

/-- Witness for `c9_conditional_choice_filtering`: a condition-free choice is
present in a concrete rendered list. -/
theorem c9_conditional_choice_filtering_witness :
    substChoice [] emberChoice ∈ processChoiceList [] [emberChoice] :=
  c9_conditional_choice_filtering.2.2 [] [emberChoice] emberChoice
    (List.mem_cons_self _ _) rfl

/-! ### C10 — failure after a logged and applied choice without next scene -/

/-- C10: when the chosen choice exists but carries no next-scene pointer,
`make_choice` returns a failure — yet the decision-log append, the
state-variable assignments and the per-run inventory deltas of the choice's
outcome have already been applied and are not rolled back. -/
theorem c10_no_next_scene_keeps_mutations
    (c : Content) (w : World) (u : Int) (cid : String) (t : Nat)
    (qs : ActiveQuest) (qi : QuestInfo) (sc : SceneDef) (ch : ChoiceDef)
    (hq : alookup w.active_quests u = some qs)
    (hqi : alookup c.quests qs.quest_name = some qi)
    (hsc : alookup qi.scenes (sceneKey qs.current_scene) = some sc)
    (hch : (sc.choices.getD []).find? (fun x => x.id = cid) = some ch)
    (hns : ch.next_scene = Option.none) :
    make_choice c w u cid t
      = ((false, "No next scene specified for this choice.", Payload.empty),
         { db := { w.db with
             decision_logs :=
               decInsertOrReplace w.db.decision_logs u qs.quest_name
                 (sceneKey qs.current_scene) cid t },
           active_quests := setk w.active_quests u (applyOutcomes ch qs) }) := by
  simp only [make_choice, hq, hqi, hsc, hch, hns]

/-- Witness for `c10_no_next_scene_keeps_mutations` at the dead-end
scenario. -/
theorem c10_no_next_scene_keeps_mutations_witness :
    make_choice deadEndContent deadEndW 1 "d" 3
      = ((false, "No next scene specified for this choice.", Payload.empty),
         { db := { deadEndW.db with
             decision_logs :=
               decInsertOrReplace deadEndW.db.decision_logs 1 "D"
                 (sceneKey (Val.int 1)) "d" 3 },
           active_quests :=
             setk deadEndW.active_quests 1
               (applyOutcomes deadEndChoice ⟨"D", Val.int 1, [], []⟩) }) :=
  c10_no_next_scene_keeps_mutations deadEndContent deadEndW 1 "d" 3
    ⟨"D", Val.int 1, [], []⟩
    { scenes := [("scene_1", { choices := some [deadEndChoice] })] }
    { choices := some [deadEndChoice] }
    deadEndChoice (by decide) (by decide) (by decide) (by decide) (by decide)

/-! ### C3 — decision log -/

theorem alookup_setk_self {α β : Type} [DecidableEq α]
    (l : List (α × β)) (k : α) (v : β) : alookup (setk l k v) k = some v := by
  induction l with
  | nil => simp [setk, alookup]
  | cons kv rest ih =>
    cases kv with
    | mk k' v' =>
      rw [setk]
      by_cases hk : k' = k
      · rw [if_pos hk, alookup, if_pos rfl]
      · rw [if_neg hk, alookup, if_neg hk, ih]

theorem applyRewardItem_logs (c : Content) (u : Int) (db : DB) (kv : String × Int) :
    (applyRewardItem c u db kv).decision_logs = db.decision_logs := by
  unfold applyRewardItem
  split <;> rfl

theorem foldl_rewardItems_logs (c : Content) (u : Int) (db : DB)
    (its : List (String × Int)) :
    (its.foldl (applyRewardItem c u) db).decision_logs = db.decision_logs :=
  @foldl_preserve DB (String × Int) (fun d => d.decision_logs = db.decision_logs)
    (applyRewardItem c u) its
    (fun db' kv _ h => (applyRewardItem_logs c u db' kv).trans h) db rfl

theorem complete_quest_logs (c : Content) (w : World) (u : Int) (t : Nat) :
    ((complete_quest c w u t).2).db.decision_logs = w.db.decision_logs := by
  cases hq : alookup w.active_quests u with
  | none => simp [complete_quest, hq]
  | some qs =>
    cases hqi : alookup c.quests qs.quest_name with
    | none => simp [complete_quest, hq, hqi]
    | some qi =>
      cases hits : qi.rewards.items with
      | none =>
        cases hds : qi.rewards.discoveries with
        | none => simp [complete_quest, hq, hqi, hits, hds]
        | some ds => simp [complete_quest, hq, hqi, hits, hds]
      | some its =>
        cases hds : qi.rewards.discoveries with
        | none => simp [complete_quest, hq, hqi, hits, hds, foldl_rewardItems_logs]
        | some ds => simp [complete_quest, hq, hqi, hits, hds, foldl_rewardItems_logs]

theorem make_choice_logs
    (c : Content) (w : World) (u : Int) (cid : String) (t : Nat)
    (qs : ActiveQuest) (qi : QuestInfo) (sc : SceneDef) (ch : ChoiceDef)
    (hq : alookup w.active_quests u = some qs)
    (hqi : alookup c.quests qs.quest_name = some qi)
    (hsc : alookup qi.scenes (sceneKey qs.current_scene) = some sc)
    (hch : (sc.choices.getD []).find? (fun x => x.id = cid) = some ch) :
    ((make_choice c w u cid t).2).db.decision_logs
      = decInsertOrReplace w.db.decision_logs u qs.quest_name
          (sceneKey qs.current_scene) cid t := by
  cases hns : ch.next_scene with
  | none => simp [make_choice, hq, hqi, hsc, hch, hns]
  | some ns =>
    by_cases htr : truthy ns = true
    · by_cases hcp : ns = Val.str "complete"
      · have htr' : truthy (Val.str "complete") = true := rfl
        simp [make_choice, hq, hqi, hsc, hch, hns, htr, htr', hcp, complete_quest_logs]
      · simp [make_choice, hq, hqi, hsc, hch, hns, htr, hcp]
    · simp [make_choice, hq, hqi, hsc, hch, hns, htr]

/-- C3 counterexample: applying the same (quest, scene, choice) twice leaves
a single decision-log row (the table's primary key plus `INSERT OR REPLACE`
deduplicate), with the first application's timestamp overwritten by the
second's — not two rows with distinct timestamps. -/
theorem c3_same_choice_twice_single_row :
    (make_choice loopContent loopW 1 "c" 1).2.db.decision_logs
      = [⟨1, "Q", "scene_1", "c", 1⟩] ∧
    ((make_choice loopContent
        (make_choice loopContent loopW 1 "c" 1).2 1 "c" 2).2).db.decision_logs
      = [⟨1, "Q", "scene_1", "c", 2⟩] := by
  decide

/-- C3 amended: a successful choice application leaves exactly one
decision-log row for its (player, quest, scene, choice) key — replacing any
earlier row for that key and stamping it with the latest application time —
while rows for every other key are preserved untouched. -/
theorem c3_decision_log_replace
    (c : Content) (w : World) (u : Int) (cid : String) (t : Nat)
    (qs : ActiveQuest) (qi : QuestInfo) (sc : SceneDef) (ch : ChoiceDef)
    (hq : alookup w.active_quests u = some qs)
    (hqi : alookup c.quests qs.quest_name = some qi)
    (hsc : alookup qi.scenes (sceneKey qs.current_scene) = some sc)
    (hch : (sc.choices.getD []).find? (fun x => x.id = cid) = some ch) :
    (((make_choice c w u cid t).2).db.decision_logs.countP
        (fun r => decide (r.user_id = u ∧ r.quest_name = qs.quest_name
          ∧ r.scene_id = sceneKey qs.current_scene ∧ r.choice_id = cid)) = 1)
    ∧ (∀ r ∈ ((make_choice c w u cid t).2).db.decision_logs,
        (r.user_id = u ∧ r.quest_name = qs.quest_name
          ∧ r.scene_id = sceneKey qs.current_scene ∧ r.choice_id = cid) →
        r.decision_date = t)
    ∧ (∀ r ∈ w.db.decision_logs,
        ¬(r.user_id = u ∧ r.quest_name = qs.quest_name
          ∧ r.scene_id = sceneKey qs.current_scene ∧ r.choice_id = cid) →
        r ∈ ((make_choice c w u cid t).2).db.decision_logs) := by
  rw [make_choice_logs c w u cid t qs qi sc ch hq hqi hsc hch]
  refine ⟨?_, ?_, ?_⟩
  · rw [decInsertOrReplace, List.countP_append]
    have h0 : (w.db.decision_logs.filter (fun r =>
        ¬(r.user_id = u ∧ r.quest_name = qs.quest_name
          ∧ r.scene_id = sceneKey qs.current_scene ∧ r.choice_id = cid))).countP
        (fun r => decide (r.user_id = u ∧ r.quest_name = qs.quest_name
          ∧ r.scene_id = sceneKey qs.current_scene ∧ r.choice_id = cid)) = 0 := by
      rw [List.countP_eq_zero]
      intro r hr
      have hnot := List.of_mem_filter hr
      simp at hnot ⊢
      tauto
    rw [h0]
    simp
  · intro r hr hkey
    rcases List.mem_append.mp hr with h1 | h1
    · have hnot := List.of_mem_filter h1
      simp at hnot
      tauto
    · simp at h1
      rw [h1]
  · intro r hr hkey
    apply List.mem_append_left
    exact List.mem_filter.mpr ⟨hr, by simp; tauto⟩

/-- Witness for `c3_decision_log_replace` on the self-looping quest. -/
theorem c3_decision_log_replace_witness :
    ((make_choice loopContent loopW 1 "c" 4).2).db.decision_logs.countP
        (fun r => decide (r.user_id = 1 ∧ r.quest_name = "Q"
          ∧ r.scene_id = sceneKey (Val.int 1) ∧ r.choice_id = "c")) = 1 :=
  (c3_decision_log_replace loopContent loopW 1 "c" 4
    ⟨"Q", Val.int 1, [], []⟩
    { scenes := [("scene_1",
        { choices := some [{ id := "c", next_scene := some (Val.int 1) }] })] }
    { choices := some [{ id := "c", next_scene := some (Val.int 1) }] }
    { id := "c", next_scene := some (Val.int 1) }
    (by decide) (by decide) (by decide) (by decide)).1

/-! ### C4 — start-quest preconditions -/

/-- C4 counterexample: the claim says `start(p, q)` fails with the
already-active reason exactly when the player has an active run *of q*; but
the code checks `user_id in self.active_quests`, so a player active on quest
`A` is refused a start of the existing, not-active-for-them quest `B` with
the already-active reason. -/
theorem c4_already_active_rejects_other_quest :
    busyW.active_quests.all (fun e => decide (e.2.quest_name ≠ "B")) = true ∧
    (alookup abContent.quests "B").isSome = true ∧
    start_quest abContent busyW 1 "B" 0
      = ((false, alreadyOnQuestMsg, Payload.empty), busyW) := by
  decide

/-- C4 amended: `start_quest` fails with the already-active reason exactly
when the player has *any* active quest run (checked before existence); when
idle it fails with the distinct quest-not-found reason for an unknown quest;
on success it creates the single run record for the player at scene 1 with an
empty state map and upserts the durable row, so no second record for the
(player, quest) pair can exist; and the two failure reasons are
distinguishable. -/
theorem c4_start_quest_characterization
    (c : Content) (w : World) (u : Int) (qn : String) (t : Nat) :
    ((alookup w.active_quests u).isSome = true →
      start_quest c w u qn t = ((false, alreadyOnQuestMsg, Payload.empty), w))
    ∧ (alookup w.active_quests u = Option.none →
        alookup c.quests qn = Option.none →
        start_quest c w u qn t
          = ((false, "Quest '" ++ qn ++ "' not found.", Payload.empty), w))
    ∧ (∀ qi, alookup w.active_quests u = Option.none →
        alookup c.quests qn = some qi →
        ((start_quest c w u qn t).2.active_quests
            = setk w.active_quests u ⟨qn, Val.int 1, [], []⟩
          ∧ (start_quest c w u qn t).2.db.user_quests
            = questInsertOrReplace w.db.user_quests u qn "active" (Val.int 1) t
          ∧ alookup ((start_quest c w u qn t).2.active_quests) u
            = some ⟨qn, Val.int 1, [], []⟩))
    ∧ alreadyOnQuestMsg ≠ "Quest '" ++ qn ++ "' not found." := by
  refine ⟨?_, ?_, ?_, ?_⟩
  · intro h
    rw [start_quest, if_pos h]
  · intro h1 h2
    rw [start_quest, if_neg (by simp [h1]), h2]
  · intro qi h1 h2
    rw [start_quest, if_neg (by simp [h1]), h2]
    exact ⟨rfl, rfl, alookup_setk_self _ _ _⟩
  · have h1 : alreadyOnQuestMsg.data.head? = some 'Y' := rfl
    have h2 : ("Quest '" ++ qn ++ "' not found.").data.head? = some 'Q' := by
      rw [String.data_append, String.data_append]
      rfl
    intro h
    rw [h, h2] at h1
    simp at h1

/-- Witness for `c4_start_quest_characterization`: a successful start from an
idle state creates the scene-1 record. -/
theorem c4_start_quest_characterization_witness :
    ((start_quest emberContent ⟨emptyDB, []⟩ 1 "The Ember's Awakening" 4).2.active_quests
        = setk (⟨emptyDB, []⟩ : World).active_quests 1
            ⟨"The Ember's Awakening", Val.int 1, [], []⟩
      ∧ (start_quest emberContent ⟨emptyDB, []⟩ 1 "The Ember's Awakening" 4).2.db.user_quests
        = questInsertOrReplace (⟨emptyDB, []⟩ : World).db.user_quests 1
            "The Ember's Awakening" "active" (Val.int 1) 4
      ∧ alookup ((start_quest emberContent ⟨emptyDB, []⟩ 1
            "The Ember's Awakening" 4).2.active_quests) 1
        = some ⟨"The Ember's Awakening", Val.int 1, [], []⟩) :=
  (c4_start_quest_characterization emberContent ⟨emptyDB, []⟩ 1
    "The Ember's Awakening" 4).2.2.1 emberQuest (by decide) (by decide)

/-! ### C6 — end-to-end choice application -/

/-- C6 counterexample: after the scenario's successful `apply_choice`, the
queryable durable inventory (`get_inventory`, which reads `user_inventory`)
shows nothing: the gained item went only into the in-process per-run
inventory, which `make_choice` never writes to the database. -/
theorem c6_gain_not_in_queryable_inventory :
    (make_choice emberContent (emberW 1) 1 "3A" 5).1.1 = true ∧
    ((make_choice emberContent (emberW 1) 1 "3A" 5).2).db.user_inventory = [] ∧
    get_inventory emberContent ((make_choice emberContent (emberW 1) 1 "3A" 5).2).db 1
      = [] := by
  decide

/-- C6 amended: the successful `apply_choice` of the scenario leaves the
item with quantity 1 in the run's ephemeral per-run inventory (not the
durable queryable one, which stays empty), sets the active run's current
scene to 2 (in memory and in the durable quest row), and stores one
decision-log entry for (player, quest, scene 1, choice). -/
theorem c6_choice_effects_per_run :
    (make_choice emberContent (emberW 1) 1 "3A" 5).1.1 = true ∧
    (alookup ((make_choice emberContent (emberW 1) 1 "3A" 5).2).active_quests 1).map
        ActiveQuest.inventory = some [("Emberdust Vial", 1)] ∧
    (alookup ((make_choice emberContent (emberW 1) 1 "3A" 5).2).active_quests 1).map
        ActiveQuest.current_scene = some (Val.int 2) ∧
    ((make_choice emberContent (emberW 1) 1 "3A" 5).2).db.decision_logs
      = [⟨1, "The Ember's Awakening", "scene_1", "3A", 5⟩] ∧
    get_inventory emberContent ((make_choice emberContent (emberW 1) 1 "3A" 5).2).db 1
      = [] := by
  decide

/-! ### C2 — inventory positivity invariant -/

theorem DbPos_pairStep (u : Int) (item : String) (q : Int) (db : DB)
    (h : DbPos db) : DbPos (invDeleteNonpos u item (invUpdateSub u item q db)) := by
  intro r hr
  simp only [invDeleteNonpos, invUpdateSub] at hr
  obtain ⟨hmem, hpred⟩ := List.mem_filter.mp hr
  obtain ⟨r0, hr0, hfr⟩ := List.mem_map.mp hmem
  by_cases hc : r0.user_id = u ∧ r0.item_name = item
  · rw [if_pos hc] at hfr
    subst hfr
    obtain ⟨hc1, hc2⟩ := hc
    simp at hpred ⊢
    tauto
  · rw [if_neg hc] at hfr
    subst hfr
    exact h r0 hr0

theorem DbPos_produce (u : Int) (item rarity : String) (db : DB)
    (h : DbPos db) : DbPos (produceStep u item rarity db) := by
  intro r hr
  rw [produceStep] at hr
  by_cases he : invRowExists db u item = true
  · rw [if_pos he] at hr
    simp only at hr
    obtain ⟨r0, hr0, hfr⟩ := List.mem_map.mp hr
    by_cases hc : r0.user_id = u ∧ r0.item_name = item
    · rw [if_pos hc] at hfr
      subst hfr
      have := h r0 hr0
      simp
      omega
    · rw [if_neg hc] at hfr
      subst hfr
      exact h r0 hr0
  · rw [if_neg he] at hr
    simp only at hr
    rcases List.mem_append.mp hr with h1 | h1
    · exact h r h1
    · simp at h1
      rw [h1]
      norm_num

theorem DbPos_consume (u : Int) :
    ∀ (reqs : List (String × Int)) (db : DB), DbPos db →
      DbPos (runStmts db ((reqs.map (fun rr =>
        [invUpdateSub u rr.1 rr.2, invDeleteNonpos u rr.1])).flatten)) := by
  intro reqs
  induction reqs with
  | nil => intro db h; exact h
  | cons rr rest ih =>
    intro db h
    rw [List.map_cons, List.flatten_cons, runStmts_append]
    exact ih _ (DbPos_pairStep u rr.1 rr.2 db h)

theorem DbPos_craft (db : DB) (u : Int) (item : String)
    (h : DbPos db) : DbPos ((craft_item db u item).2) := by
  rw [craft_item]
  by_cases hc : (can_craft_item db u item).1 = true
  · rw [if_pos hc]
    cases hf : db.crafting_recipes.find? (fun r => r.result_item = item) with
    | none => exact h
    | some recipe =>
      simp only
      rw [craftStmts, runStmts_append]
      have h1 := DbPos_consume u recipe.requirements db h
      have : runStmts (runStmts db ((recipe.requirements.map (fun rr =>
          [invUpdateSub u rr.1 rr.2, invDeleteNonpos u rr.1])).flatten))
          [produceStep u recipe.result_item recipe.result_rarity]
          = produceStep u recipe.result_item recipe.result_rarity
            (runStmts db ((recipe.requirements.map (fun rr =>
              [invUpdateSub u rr.1 rr.2, invDeleteNonpos u rr.1])).flatten)) := rfl
      rw [this]
      exact DbPos_produce u recipe.result_item recipe.result_rarity _ h1
  · rw [if_neg hc]
    exact h

theorem gained_pos (g inv : List (String × Int))
    (hg : ∀ kv ∈ g, (0:Int) < kv.2) (hi : ∀ kv ∈ inv, (0:Int) < kv.2) :
    ∀ kv ∈ applyGained inv g, (0:Int) < kv.2 := by
  rw [applyGained]
  refine @foldl_preserve _ _ (fun inv' => ∀ kv ∈ inv', (0:Int) < kv.2)
    _ g (fun inv' kv hkv h => ?_) inv hi
  cases ha : alookup inv' kv.1 with
  | none =>
    intro x hx
    rcases mem_setk hx with h1 | h1
    · rw [h1]; exact hg kv hkv
    · exact h x h1
  | some q =>
    intro x hx
    rcases mem_setk hx with h1 | h1
    · rw [h1]
      have hq : (0:Int) < q := h (kv.1, q) (alookup_mem ha)
      have := hg kv hkv
      simp
      omega
    · exact h x h1

theorem lost_pos (l inv : List (String × Int))
    (hi : ∀ kv ∈ inv, (0:Int) < kv.2) :
    ∀ kv ∈ applyLost inv l, (0:Int) < kv.2 := by
  rw [applyLost]
  refine @foldl_preserve _ _ (fun inv' => ∀ kv ∈ inv', (0:Int) < kv.2)
    _ l (fun inv' kv _ h => ?_) inv hi
  cases ha : alookup inv' kv.1 with
  | none => exact h
  | some q =>
    intro x hx
    have hx' : x ∈ (if q - kv.2 ≤ 0 then delk inv' kv.1
        else setk inv' kv.1 (q - kv.2)) := hx
    by_cases hz : q - kv.2 ≤ 0
    · rw [if_pos hz] at hx'
      exact h x (mem_delk hx')
    · rw [if_neg hz] at hx'
      rcases mem_setk hx' with h1 | h1
      · rw [h1]
        simp
        omega
      · exact h x h1

theorem applyOutcomes_pos (ch : ChoiceDef) (qs : ActiveQuest)
    (hch : PosOutcomes ch) (h : ∀ kv ∈ qs.inventory, (0:Int) < kv.2) :
    ∀ kv ∈ (applyOutcomes ch qs).inventory, (0:Int) < kv.2 := by
  rw [applyOutcomes]
  cases ho : ch.outcomes with
  | none => exact h
  | some o =>
    simp only
    have h1 : ∀ kv ∈ (match o.items_gained with
        | some g => applyGained qs.inventory g
        | Option.none => qs.inventory), (0:Int) < kv.2 := by
      cases hg : o.items_gained with
      | none => exact h
      | some g =>
        exact gained_pos g qs.inventory
          (by have := hch o ho; rw [hg] at this; simpa using this) h
    cases hl : o.items_lost with
    | none => exact h1
    | some l => exact lost_pos l _ h1

theorem DbPos_rewardItem (c : Content) (u : Int) (db : DB) (kv : String × Int)
    (hq : (0:Int) < kv.2) (h : DbPos db) : DbPos (applyRewardItem c u db kv) := by
  intro r hr
  rw [applyRewardItem] at hr
  by_cases he : invRowExists db u kv.1 = true
  · rw [if_pos he] at hr
    simp only at hr
    obtain ⟨r0, hr0, hfr⟩ := List.mem_map.mp hr
    by_cases hc : r0.user_id = u ∧ r0.item_name = kv.1
    · rw [if_pos hc] at hfr
      subst hfr
      have := h r0 hr0
      simp
      omega
    · rw [if_neg hc] at hfr
      subst hfr
      exact h r0 hr0
  · rw [if_neg he] at hr
    simp only at hr
    rcases List.mem_append.mp hr with h1 | h1
    · exact h r h1
    · simp at h1
      rw [h1]
      exact hq

theorem DbPos_rewardFold (c : Content) (u : Int) (db : DB)
    (its : List (String × Int)) (hits : ∀ kv ∈ its, (0:Int) < kv.2)
    (h : DbPos db) : DbPos (its.foldl (applyRewardItem c u) db) :=
  @foldl_preserve DB (String × Int) DbPos (applyRewardItem c u) its
    (fun db' kv hkv h' => DbPos_rewardItem c u db' kv (hits kv hkv) h') db h

theorem complete_quest_invPos (c : Content) (hc : PosContent c)
    (w : World) (u : Int) (t : Nat) (h : InvPos w) :
    InvPos ((complete_quest c w u t).2) := by
  cases hq : alookup w.active_quests u with
  | none => simpa [complete_quest, hq] using h
  | some qs =>
    cases hqi : alookup c.quests qs.quest_name with
    | none => simpa [complete_quest, hq, hqi] using h
    | some qi =>
      have hrew : ∀ kv ∈ qi.rewards.items.getD [], (0:Int) < kv.2 :=
        (hc (qs.quest_name, qi) (alookup_mem hqi)).2
      have hdel : ∀ e ∈ delk w.active_quests u, ∀ kv ∈ e.2.inventory, (0:Int) < kv.2 :=
        fun e he kv hkv => h.2 e (mem_delk he) kv hkv
      cases hits : qi.rewards.items with
      | none =>
        cases hds : qi.rewards.discoveries with
        | none =>
          simp only [complete_quest, hq, hqi, hits, hds]
          exact ⟨h.1, hdel⟩
        | some ds =>
          simp only [complete_quest, hq, hqi, hits, hds]
          exact ⟨h.1, hdel⟩
      | some its =>
        have hits' : ∀ kv ∈ its, (0:Int) < kv.2 := by
          rw [hits] at hrew
          simpa using hrew
        cases hds : qi.rewards.discoveries with
        | none =>
          simp only [complete_quest, hq, hqi, hits, hds]
          exact ⟨DbPos_rewardFold c u _ its hits' h.1, hdel⟩
        | some ds =>
          simp only [complete_quest, hq, hqi, hits, hds]
          exact ⟨DbPos_rewardFold c u _ its hits' h.1, hdel⟩

theorem make_choice_invPos (c : Content) (hc : PosContent c)
    (w : World) (u : Int) (cid : String) (t : Nat) (h : InvPos w) :
    InvPos ((make_choice c w u cid t).2) := by
  cases hq : alookup w.active_quests u with
  | none => simpa [make_choice, hq] using h
  | some qs =>
    cases hqi : alookup c.quests qs.quest_name with
    | none => simpa [make_choice, hq, hqi] using h
    | some qi =>
      cases hsc : alookup qi.scenes (sceneKey qs.current_scene) with
      | none => simpa [make_choice, hq, hqi, hsc] using h
      | some sc =>
        cases hch : (sc.choices.getD []).find? (fun x => x.id = cid) with
        | none => simpa [make_choice, hq, hqi, hsc, hch] using h
        | some ch =>
          have hpos : PosOutcomes ch :=
            (hc (qs.quest_name, qi) (alookup_mem hqi)).1
              (sceneKey qs.current_scene, sc) (alookup_mem hsc)
              ch (List.mem_of_find?_eq_some hch)
          have hqs : ∀ kv ∈ qs.inventory, (0:Int) < kv.2 :=
            h.2 (u, qs) (alookup_mem hq)
          have hqs1 := applyOutcomes_pos ch qs hpos hqs
          have hsetk : ∀ (aq : ActiveQuest),
              (∀ kv ∈ aq.inventory, (0:Int) < kv.2) →
              ∀ e ∈ setk w.active_quests u aq, ∀ kv ∈ e.2.inventory, (0:Int) < kv.2 := by
            intro aq haq e he kv hkv
            rcases mem_setk he with h1 | h1
            · subst h1
              exact haq kv hkv
            · exact h.2 e h1 kv hkv
          cases hns : ch.next_scene with
          | none =>
            simp only [make_choice, hq, hqi, hsc, hch, hns]
            exact ⟨h.1, hsetk _ hqs1⟩
          | some ns =>
            by_cases htr : truthy ns = true
            · by_cases hcp : ns = Val.str "complete"
              · have htr' : truthy (Val.str "complete") = true := rfl
                simp only [make_choice, hq, hqi, hsc, hch, hns, hcp, htr',
                  if_true, if_pos rfl]
                exact complete_quest_invPos c hc _ u t ⟨h.1, hsetk _ hqs1⟩
              · simp [make_choice, hq, hqi, hsc, hch, hns, htr, hcp]
                exact ⟨h.1, hsetk _ hqs1⟩
            · simp [make_choice, hq, hqi, hsc, hch, hns, htr]
              exact ⟨h.1, hsetk _ hqs1⟩

theorem invPos_stepOp (c : Content) (hc : PosContent c) (w : World) (op : Op)
    (h : InvPos w) : InvPos (stepOp c w op) := by
  cases op with
  | choice u cid t => exact make_choice_invPos c hc w u cid t h
  | craft u item =>
    exact ⟨DbPos_craft w.db u item h.1, fun e he kv hkv => h.2 e he kv hkv⟩

theorem invPos_runOps (c : Content) (hc : PosContent c) (w : World)
    (h : InvPos w) (ops : List Op) : InvPos (runOps c w ops) :=
  @foldl_preserve World Op InvPos (stepOp c) ops
    (fun w' op _ h' => invPos_stepOp c hc w' op h') w h

theorem invPosB_iff (w : World) : invPosB w = true ↔ InvPos w := by
  simp [invPosB, dbInvPosB, runInvPosB, InvPos, DbPos, List.all_eq_true]

theorem posOutcomesB_iff (ch : ChoiceDef) :
    (match ch.outcomes with
      | some o => (o.items_gained.getD []).all (fun kv => decide (0 < kv.2))
      | Option.none => true) = true ↔ PosOutcomes ch := by
  cases ho : ch.outcomes with
  | none => simp [PosOutcomes, ho]
  | some o => simp [PosOutcomes, ho, List.all_eq_true]

theorem posContentB_iff (c : Content) : posContentB c = true ↔ PosContent c := by
  rw [posContentB, List.all_eq_true]
  constructor
  · intro hb q hq
    have hbq := hb q hq
    rw [Bool.and_eq_true] at hbq
    obtain ⟨h1, h2⟩ := hbq
    constructor
    · intro s hs ch hch
      rw [List.all_eq_true] at h1
      have := h1 s hs
      rw [List.all_eq_true] at this
      exact (posOutcomesB_iff ch).mp (this ch hch)
    · intro kv hkv
      rw [List.all_eq_true] at h2
      simpa using h2 kv hkv
  · intro hp q hq
    have hpq := hp q hq
    rw [Bool.and_eq_true]
    constructor
    · rw [List.all_eq_true]
      intro s hs
      rw [List.all_eq_true]
      intro ch hch
      exact (posOutcomesB_iff ch).mpr (hpq.1 s hs ch hch)
    · rw [List.all_eq_true]
      intro kv hkv
      simpa using hpq.2 kv hkv

/-- C2 counterexample: from a state satisfying the invariant, a single choice
whose outcome grants zero units of an item stores a per-run inventory entry
with quantity 0 — a stored entry with non-positive quantity, which the claim
says can never exist. -/
theorem c2_zero_gain_zero_quantity_entry :
    invPosB zeroGainW = true ∧
    (alookup ((make_choice zeroGainContent zeroGainW 1 "c" 1).2).active_quests 1).map
        ActiveQuest.inventory = some [("X", 0)] ∧
    invPosB ((make_choice zeroGainContent zeroGainW 1 "c" 1).2) = false := by
  decide

/-- C2 amended: provided every `items_gained` quantity and every completion
reward item quantity in the content is positive, every finite sequence of
choice applications and craft operations started from a state with only
positive stored quantities keeps every stored inventory entry — durable row
or per-run entry — strictly positive (zero-or-below entries are deleted, and
rows are never driven negative). -/
theorem c2_inventory_positive_invariant (c : Content) (w : World) (ops : List Op)
    (hc : posContentB c = true) (hw : invPosB w = true) :
    invPosB (runOps c w ops) = true :=
  (invPosB_iff _).mpr
    (invPos_runOps c ((posContentB_iff c).mp hc) w ((invPosB_iff w).mp hw) ops)

/-- Witness for `c2_inventory_positive_invariant` on a concrete run mixing a
choice application and a craft. -/
theorem c2_inventory_positive_invariant_witness :
    invPosB (runOps emberContent (emberW 1)
      [Op.choice 1 "3A" 5, Op.craft 1 "Inferno Fang"]) = true :=
  c2_inventory_positive_invariant emberContent (emberW 1)
    [Op.choice 1 "3A" 5, Op.craft 1 "Inferno Fang"] (by decide) (by decide)

end ZXI
